import Mathlib

/-!
Shallow embedding of `src/lib/oauth-provider.js` (the OAuth token-lifecycle
core of the recipe MCP server).

Modelling conventions:
* Timestamps are natural numbers counting milliseconds since the epoch;
  `new Date(row.expires_at) < new Date()` becomes `row.expires_at < now`.
* The Supabase tables `oauth_authorization_codes` and `oauth_tokens` are
  lists of rows inside a `Store`; inserts append, `.update` maps over the
  list, `.delete().eq(...)` filters the list.
* `.single()` succeeds exactly when the filter matches exactly one row
  (`singleMatch`), as in supabase-js.
* Randomness (`crypto.randomUUID`, `crypto.randomBytes(...)`) and the clock
  (`Date.now`) are passed in as explicit arguments.
* JavaScript `x || null` on a string is falsy on the empty string; `jsOrNull`
  reproduces that.  `scopes || fallback` on a possibly-undefined array is
  `Option.getD` (arrays, even empty ones, are truthy).
* Thrown errors become the `OAuthError` variants carrying the same meaning as
  the thrown message strings; operations return the error (or result)
  together with the post-state of the store, since the expired branch of the
  code exchange mutates storage before throwing.
-/

namespace RecipeMCP

/-- A row of the `oauth_authorization_codes` table.  Fields mirror the insert
in `authorize` (oauth-provider.js lines 72-83). -/
structure AuthCodeRow where
  code : String
  client_id : String
  redirect_uri : String
  code_challenge : String
  scopes : List String
  state : Option String
  resource : Option String
  expires_at : Nat
  deriving DecidableEq

/-- The `token_type` column of `oauth_tokens`. -/
inductive TokenType where
  | access
  | refresh
  deriving DecidableEq

/-- A row of the `oauth_tokens` table (oauth-provider.js lines 136-157). -/
structure TokenRow where
  token : String
  token_type : TokenType
  client_id : String
  scopes : List String
  resource : Option String
  expires_at : Nat
  revoked : Bool
  related_token : String
  deriving DecidableEq

/-- The persistent store: the two tables the token-lifecycle engine touches. -/
structure Store where
  authCodes : List AuthCodeRow
  tokens : List TokenRow
  deriving DecidableEq

/-- Errors thrown by the provider, one per thrown message string. -/
inductive OAuthError where
  | codeNotFound
  | codeExpired
  | invalidRefreshToken
  | refreshExpired
  | invalidAccessToken
  | accessExpired
  deriving DecidableEq

/-- The object returned from a successful token exchange
(oauth-provider.js lines 162-168 and 229-235). -/
structure TokenResponse where
  access_token : String
  token_type : String
  expires_in : Nat
  refresh_token : String
  scope : String
  deriving DecidableEq

/-- The object returned from a successful `verifyAccessToken`
(oauth-provider.js lines 256-262); `expiresAt` is in seconds. -/
structure VerifyResult where
  token : String
  clientId : String
  scopes : List String
  expiresAt : Nat
  resource : Option String
  deriving DecidableEq

instance {ε α : Type} [DecidableEq ε] [DecidableEq α] : DecidableEq (Except ε α)
  | .error a, .error b =>
    if h : a = b then isTrue (by rw [h])
    else isFalse (fun hc => h (Except.error.inj hc))
  | .error _, .ok _ => isFalse (fun hc => Except.noConfusion hc)
  | .ok _, .error _ => isFalse (fun hc => Except.noConfusion hc)
  | .ok a, .ok b =>
    if h : a = b then isTrue (by rw [h])
    else isFalse (fun hc => h (Except.ok.inj hc))

/-- JavaScript `s ? s : null` / `s || null` on an optional string: the empty
string is falsy and collapses to `null`. -/
def jsOrNull : Option String → Option String
  | some st => if st = "" then none else some st
  | none => none

/-- supabase-js `.single()`: the query succeeds exactly when the filter
matches exactly one row. -/
def singleMatch {α : Type} (p : α → Prop) [DecidablePred p] (l : List α) : Option α :=
  match l.filter (fun a => decide (p a)) with
  | [r] => some r
  | _ => none

/-- Parameters of the `authorize` call (`params` in oauth-provider.js). -/
structure AuthorizeParams where
  redirectUri : String
  codeChallenge : String
  scopes : Option (List String)
  state : Option String
  resource : Option String
  deriving DecidableEq

/-- `authorize` (oauth-provider.js lines 68-94): mint a fresh code, store a
row for it that expires 10 minutes from now, and hand the code value back to
the user agent (via the redirect URL).  `freshCode` stands for
`crypto.randomUUID()` and `now` for `Date.now()`. -/
def authorize (s : Store) (clientId : String) (params : AuthorizeParams)
    (now : Nat) (freshCode : String) : String × Store :=
  let row : AuthCodeRow :=
    { code := freshCode
      client_id := clientId
      redirect_uri := params.redirectUri
      code_challenge := params.codeChallenge
      scopes := params.scopes.getD []
      state := jsOrNull params.state
      resource := jsOrNull params.resource
      expires_at := now + 10 * 60 * 1000 }
  (freshCode, { s with authCodes := s.authCodes ++ [row] })

/-- The row filter used by `challengeForAuthorizationCode` and
`exchangeAuthorizationCode`: `.eq(code).eq(client_id)`. -/
abbrev codePred (clientId code : String) (r : AuthCodeRow) : Prop :=
  r.code = code ∧ r.client_id = clientId

/-- The row filter used by `exchangeRefreshToken`:
`.eq(token).eq(token_type, refresh).eq(client_id).eq(revoked, false)`. -/
abbrev refreshPred (clientId refreshToken : String) (r : TokenRow) : Prop :=
  r.token = refreshToken ∧ r.token_type = TokenType.refresh ∧
    r.client_id = clientId ∧ r.revoked = false

/-- The row filter used by `verifyAccessToken`:
`.eq(token).eq(token_type, access).eq(revoked, false)`. -/
abbrev accessPred (token : String) (r : TokenRow) : Prop :=
  r.token = token ∧ r.token_type = TokenType.access ∧ r.revoked = false

/-- `.delete().eq(code, authorizationCode)` on `oauth_authorization_codes`. -/
def deleteCodeStore (s : Store) (code : String) : Store :=
  { s with authCodes := s.authCodes.filter (fun r => ¬ r.code = code) }

/-- `challengeForAuthorizationCode` (oauth-provider.js lines 96-109). -/
def challengeForAuthorizationCode (s : Store) (clientId code : String) :
    Except OAuthError String :=
  match singleMatch (codePred clientId code) s.authCodes with
  | none => .error .codeNotFound
  | some d => .ok d.code_challenge

/-- The two pre-linked token rows inserted by both exchange paths
(oauth-provider.js lines 136-157 and 203-224): access row expiring in 1 hour,
refresh row expiring in 30 days, each holding the other's value in
`related_token`. -/
def mintPairRows (clientId : String) (scopes : List String) (resource : Option String)
    (now : Nat) (accessToken refreshToken : String) : List TokenRow :=
  [ { token := accessToken
      token_type := .access
      client_id := clientId
      scopes := scopes
      resource := resource
      expires_at := now + 60 * 60 * 1000
      revoked := false
      related_token := refreshToken },
    { token := refreshToken
      token_type := .refresh
      client_id := clientId
      scopes := scopes
      resource := resource
      expires_at := now + 30 * 24 * 60 * 60 * 1000
      revoked := false
      related_token := accessToken } ]

/-- The pair-issuance logic shared verbatim by `exchangeAuthorizationCode`
(lines 130-168) and `exchangeRefreshToken` (lines 195-235): persist the two
linked rows and return the bearer response. -/
def issuePair (s : Store) (clientId : String) (scopes : List String)
    (resource : Option String) (now : Nat) (accessToken refreshToken : String) :
    TokenResponse × Store :=
  ({ access_token := accessToken
     token_type := "bearer"
     expires_in := 3600
     refresh_token := refreshToken
     scope := String.intercalate " " scopes },
   { s with tokens := s.tokens ++ mintPairRows clientId scopes resource now accessToken refreshToken })

/-- `exchangeAuthorizationCode` (oauth-provider.js lines 111-169).  The
`codeVerifier`, `redirectUri` and `resource` arguments are received exactly
as in the source, which never reads them.  `accessToken` and `refreshToken`
stand for the two `crypto.randomBytes(32)` draws. -/
def exchangeAuthorizationCode (s : Store) (clientId authorizationCode : String)
    (codeVerifier redirectUri : String) (resource : Option String) (now : Nat)
    (accessToken refreshToken : String) : Except OAuthError TokenResponse × Store :=
  match singleMatch (codePred clientId authorizationCode) s.authCodes with
  | none => (.error .codeNotFound, s)
  | some d =>
    let deleted : Store := deleteCodeStore s authorizationCode
    if d.expires_at < now then
      (.error .codeExpired, deleted)
    else
      let minted := issuePair deleted clientId d.scopes (jsOrNull d.resource) now
        accessToken refreshToken
      (.ok minted.1, minted.2)

/-- `exchangeRefreshToken` (oauth-provider.js lines 171-236): look up the
non-revoked refresh row for this client, reject if absent or expired, revoke
the old pair by an `IN (token, related_token)` update, then mint a fresh pair
with the requested scopes (falling back to the stored grant's scopes) and the
stored grant's resource. -/
def exchangeRefreshToken (s : Store) (clientId refreshToken : String)
    (scopes : Option (List String)) (resource : Option String) (now : Nat)
    (newAccessToken newRefreshToken : String) :
    Except OAuthError TokenResponse × Store :=
  match singleMatch (refreshPred clientId refreshToken) s.tokens with
  | none => (.error .invalidRefreshToken, s)
  | some d =>
    if d.expires_at < now then
      (.error .refreshExpired, s)
    else
      let revokedStore : Store :=
        { s with tokens := s.tokens.map (fun r =>
            if r.token = refreshToken ∨ r.token = d.related_token then
              { r with revoked := true }
            else r) }
      let tokenScopes := scopes.getD d.scopes
      let minted := issuePair revokedStore clientId tokenScopes (jsOrNull d.resource) now
        newAccessToken newRefreshToken
      (.ok minted.1, minted.2)

/-- `verifyAccessToken` (oauth-provider.js lines 238-263): a single read
(filtered by value, kind `access`, and `revoked = false`) plus a time
comparison; the store comes back unchanged. -/
def verifyAccessToken (s : Store) (token : String) (now : Nat) :
    Except OAuthError VerifyResult × Store :=
  match singleMatch (accessPred token) s.tokens with
  | none => (.error .invalidAccessToken, s)
  | some d =>
    if d.expires_at < now then
      (.error .accessExpired, s)
    else
      (.ok { token := d.token
             clientId := d.client_id
             scopes := d.scopes
             expiresAt := d.expires_at / 1000
             resource := jsOrNull d.resource }, s)

/-- `revokeToken` (oauth-provider.js lines 265-271): mark every row matching
the presented token value and the calling client as revoked; the result of
the update is never inspected, so the operation cannot fail. -/
def revokeToken (s : Store) (clientId tokenValue : String) : Store :=
  { s with tokens := s.tokens.map (fun r =>
      if r.token = tokenValue ∧ r.client_id = clientId then
        { r with revoked := true }
      else r) }

/-! ### Helper lemmas about `singleMatch` -/

theorem filter_decide_eq_nil {α : Type} {p : α → Prop} [DecidablePred p] {l : List α}
    (h : ∀ a ∈ l, ¬ p a) : l.filter (fun a => decide (p a)) = [] := by
  induction l with
  | nil => rfl
  | cons a t ih =>
    have ha : ¬ p a := h a (List.mem_cons_self a t)
    simp only [List.filter_cons, decide_eq_true_eq]
    rw [if_neg ha]
    exact ih (fun b hb => h b (List.mem_cons_of_mem a hb))

theorem singleMatch_eq_none {α : Type} {p : α → Prop} [DecidablePred p] {l : List α}
    (h : ∀ a ∈ l, ¬ p a) : singleMatch p l = none := by
  unfold singleMatch
  rw [filter_decide_eq_nil h]

theorem filter_decide_eq_single {α : Type} {p : α → Prop} [DecidablePred p]
    {l : List α} {x : α} (hnd : l.Nodup) (hx : x ∈ l) (hpx : p x)
    (huniq : ∀ y ∈ l, p y → y = x) : l.filter (fun a => decide (p a)) = [x] := by
  induction l with
  | nil => simp at hx
  | cons a t ih =>
    rw [List.nodup_cons] at hnd
    rcases List.mem_cons.mp hx with hax | hxt
    · subst hax
      simp only [List.filter_cons, decide_eq_true_eq]
      rw [if_pos hpx]
      have ht : t.filter (fun a => decide (p a)) = [] := by
        apply filter_decide_eq_nil
        intro b hb hpb
        exact hnd.1 ((huniq b (List.mem_cons_of_mem x hb) hpb) ▸ hb)
      rw [ht]
    · have hpa : ¬ p a := by
        intro hpa
        have hax : a = x := huniq a (List.mem_cons_self a t) hpa
        exact hnd.1 (hax ▸ hxt)
      simp only [List.filter_cons, decide_eq_true_eq]
      rw [if_neg hpa]
      exact ih hnd.2 hxt (fun y hy hpy => huniq y (List.mem_cons_of_mem a hy) hpy)

theorem singleMatch_eq_some {α : Type} {p : α → Prop} [DecidablePred p]
    {l : List α} {x : α} (hnd : l.Nodup) (hx : x ∈ l) (hpx : p x)
    (huniq : ∀ y ∈ l, p y → y = x) : singleMatch p l = some x := by
  unfold singleMatch
  rw [filter_decide_eq_single hnd hx hpx huniq]

/-- When the rows of `l` have pairwise distinct keys and the predicate pins the
key down, a matching row is the unique single result. -/
theorem singleMatch_eq_some_of_key {α β : Type} {key : α → β} {p : α → Prop}
    [DecidablePred p] {l : List α} {x : α} (hnd : (l.map key).Nodup)
    (hx : x ∈ l) (hpx : p x) (hkey : ∀ y ∈ l, p y → key y = key x) :
    singleMatch p l = some x :=
  singleMatch_eq_some (List.Nodup.of_map key hnd) hx hpx
    (fun y hy hpy => List.inj_on_of_nodup_map hnd hy hx (hkey y hy hpy))

/-! ### Branch lemmas for the three lookup-then-act operations -/

theorem exchangeCode_of_none {s : Store} {cl code : String} (cv ru : String)
    (res : Option String) (now : Nat) (a r : String)
    (hm : singleMatch (codePred cl code) s.authCodes = none) :
    exchangeAuthorizationCode s cl code cv ru res now a r =
      (.error .codeNotFound, s) := by
  unfold exchangeAuthorizationCode
  rw [hm]

theorem exchangeCode_of_expired {s : Store} {cl code : String} (cv ru : String)
    (res : Option String) {now : Nat} (a r : String) {d : AuthCodeRow}
    (hm : singleMatch (codePred cl code) s.authCodes = some d)
    (hexp : d.expires_at < now) :
    exchangeAuthorizationCode s cl code cv ru res now a r =
      (.error .codeExpired, deleteCodeStore s code) := by
  unfold exchangeAuthorizationCode
  rw [hm]
  simp only [if_pos hexp]

theorem exchangeCode_of_live {s : Store} {cl code : String} (cv ru : String)
    (res : Option String) {now : Nat} (a r : String) {d : AuthCodeRow}
    (hm : singleMatch (codePred cl code) s.authCodes = some d)
    (hexp : ¬ d.expires_at < now) :
    exchangeAuthorizationCode s cl code cv ru res now a r =
      (.ok { access_token := a
             token_type := "bearer"
             expires_in := 3600
             refresh_token := r
             scope := String.intercalate " " d.scopes },
       { authCodes := (deleteCodeStore s code).authCodes
         tokens := s.tokens ++ mintPairRows cl d.scopes (jsOrNull d.resource) now a r }) := by
  unfold exchangeAuthorizationCode
  rw [hm]
  simp only [if_neg hexp]
  rfl

theorem rotate_of_none {s : Store} {cl rt : String} (sc : Option (List String))
    (res : Option String) (now : Nat) (a b : String)
    (hm : singleMatch (refreshPred cl rt) s.tokens = none) :
    exchangeRefreshToken s cl rt sc res now a b =
      (.error .invalidRefreshToken, s) := by
  unfold exchangeRefreshToken
  rw [hm]

theorem rotate_of_expired {s : Store} {cl rt : String} (sc : Option (List String))
    (res : Option String) {now : Nat} (a b : String) {d : TokenRow}
    (hm : singleMatch (refreshPred cl rt) s.tokens = some d)
    (hexp : d.expires_at < now) :
    exchangeRefreshToken s cl rt sc res now a b =
      (.error .refreshExpired, s) := by
  unfold exchangeRefreshToken
  rw [hm]
  simp only [if_pos hexp]

theorem rotate_of_live {s : Store} {cl rt : String} (sc : Option (List String))
    (res : Option String) {now : Nat} (a b : String) {d : TokenRow}
    (hm : singleMatch (refreshPred cl rt) s.tokens = some d)
    (hexp : ¬ d.expires_at < now) :
    exchangeRefreshToken s cl rt sc res now a b =
      (.ok { access_token := a
             token_type := "bearer"
             expires_in := 3600
             refresh_token := b
             scope := String.intercalate " " (sc.getD d.scopes) },
       { authCodes := s.authCodes
         tokens := s.tokens.map (fun q =>
             if q.token = rt ∨ q.token = d.related_token then
               { q with revoked := true }
             else q) ++
           mintPairRows cl (sc.getD d.scopes) (jsOrNull d.resource) now a b }) := by
  unfold exchangeRefreshToken
  rw [hm]
  simp only [if_neg hexp]
  rfl

theorem verify_of_none {s : Store} {t : String} (now : Nat)
    (hm : singleMatch (accessPred t) s.tokens = none) :
    verifyAccessToken s t now = (.error .invalidAccessToken, s) := by
  unfold verifyAccessToken
  rw [hm]

theorem verify_of_expired {s : Store} {t : String} {now : Nat} {d : TokenRow}
    (hm : singleMatch (accessPred t) s.tokens = some d)
    (hexp : d.expires_at < now) :
    verifyAccessToken s t now = (.error .accessExpired, s) := by
  unfold verifyAccessToken
  rw [hm]
  simp only [if_pos hexp]

theorem verify_of_live {s : Store} {t : String} {now : Nat} {d : TokenRow}
    (hm : singleMatch (accessPred t) s.tokens = some d)
    (hexp : ¬ d.expires_at < now) :
    verifyAccessToken s t now =
      (.ok { token := d.token
             clientId := d.client_id
             scopes := d.scopes
             expiresAt := d.expires_at / 1000
             resource := jsOrNull d.resource }, s) := by
  unfold verifyAccessToken
  rw [hm]
  simp only [if_neg hexp]

/-! ### Concrete fixtures used by witnesses and counterexamples -/

/-- A store holding exactly one freshly minted token pair owned by client
`c`: access token `atok`, refresh token `rtok`, minted at time 0. -/
def pairStore : Store :=
  { authCodes := []
    tokens := mintPairRows "c" ["read"] none 0 "atok" "rtok" }

/-- The refresh row of `pairStore`. -/
def pairRefreshRow : TokenRow :=
  { token := "rtok"
    token_type := .refresh
    client_id := "c"
    scopes := ["read"]
    resource := none
    expires_at := 30 * 24 * 60 * 60 * 1000
    revoked := false
    related_token := "atok" }

/-- A store holding exactly one authorization-code row, `c1` for client `cl`,
expiring at time 100. -/
def codeStore : Store :=
  { authCodes := [{ code := "c1"
                    client_id := "cl"
                    redirect_uri := "https://app.example/cb"
                    code_challenge := "abc"
                    scopes := ["read"]
                    state := none
                    resource := none
                    expires_at := 100 }]
    tokens := [] }

/-- The single row of `codeStore`. -/
def codeRow : AuthCodeRow :=
  { code := "c1"
    client_id := "cl"
    redirect_uri := "https://app.example/cb"
    code_challenge := "abc"
    scopes := ["read"]
    state := none
    resource := none
    expires_at := 100 }

/-! ### Claims -/

/-- C10: the outcome of `exchangeAuthorizationCode` is independent of its
`codeVerifier`, `redirectUri` and `resource` arguments — with the stored
state, client, code, clock and random draws fixed, any two choices of those
three arguments yield literally the same result and the same post-state; in
particular no redirect-URI or verifier check happens at exchange time. -/
theorem exchange_ignores_verifier_redirect_resource (s : Store)
    (cl code cv1 cv2 ru1 ru2 : String) (res1 res2 : Option String)
    (now : Nat) (a r : String) :
    exchangeAuthorizationCode s cl code cv1 ru1 res1 now a r =
      exchangeAuthorizationCode s cl code cv2 ru2 res2 now a r := rfl

/-- C4: a successful `authorize` call returns the freshly generated code and
appends to the code table exactly one record keyed by that code, carrying the
client and the request parameters, whose absolute expiry is the issuance time
plus 10 minutes (600 000 ms = 600 s); the token table is untouched. -/
theorem authorize_issues_code (s : Store) (cl : String) (params : AuthorizeParams)
    (now : Nat) (freshCode : String) :
    (authorize s cl params now freshCode).1 = freshCode ∧
    (authorize s cl params now freshCode).2.tokens = s.tokens ∧
    (authorize s cl params now freshCode).2.authCodes =
      s.authCodes ++
        [{ code := freshCode
           client_id := cl
           redirect_uri := params.redirectUri
           code_challenge := params.codeChallenge
           scopes := params.scopes.getD []
           state := jsOrNull params.state
           resource := jsOrNull params.resource
           expires_at := now + 600 * 1000 }] :=
  ⟨rfl, rfl, rfl⟩

/-- C5: `issuePair` (the pair-minting logic of the code exchange) persists
exactly two new rows — the access row expiring 1 hour after mint time and the
refresh row expiring 30 days after mint time, cross-linked through
`related_token` and sharing client, scopes and resource — and returns the
bearer response with `expires_in = 3600` and the scopes joined by single
spaces. -/
theorem issuePair_mints_linked_pair (s : Store) (cl : String)
    (scopes : List String) (res : Option String) (now : Nat) (a r : String) :
    (issuePair s cl scopes res now a r).1 =
      { access_token := a
        token_type := "bearer"
        expires_in := 3600
        refresh_token := r
        scope := String.intercalate " " scopes } ∧
    (issuePair s cl scopes res now a r).2.authCodes = s.authCodes ∧
    (issuePair s cl scopes res now a r).2.tokens =
      s.tokens ++
        [{ token := a
           token_type := .access
           client_id := cl
           scopes := scopes
           resource := res
           expires_at := now + 60 * 60 * 1000
           revoked := false
           related_token := r },
         { token := r
           token_type := .refresh
           client_id := cl
           scopes := scopes
           resource := res
           expires_at := now + 30 * 24 * 60 * 60 * 1000
           revoked := false
           related_token := a }] :=
  ⟨rfl, rfl, rfl⟩

/-- C9: `revokeToken` is a total function (it never fails), revoking twice
equals revoking once, and revoking a token value that no row of the calling
client holds leaves the store unchanged. -/
theorem revoke_idempotent_and_silent (s : Store) (cl t : String) :
    revokeToken (revokeToken s cl t) cl t = revokeToken s cl t ∧
    ((∀ row ∈ s.tokens, ¬ (row.token = t ∧ row.client_id = cl)) →
      revokeToken s cl t = s) := by
  constructor
  · unfold revokeToken
    simp only [List.map_map]
    congr 1
    apply List.map_congr_left
    intro row _
    by_cases hc : row.token = t ∧ row.client_id = cl
    · simp [Function.comp, hc]
    · simp [Function.comp, hc]
  · intro h
    cases s with
    | mk ac ts =>
      unfold revokeToken
      simp only [Store.mk.injEq, true_and]
      calc ts.map (fun row => if row.token = t ∧ row.client_id = cl then
              { row with revoked := true } else row)
            = ts.map id := by
              apply List.map_congr_left
              intro row hrow
              simp [h row hrow]
        _ = ts := List.map_id ts

/-- Witness for C9 at a concrete store: revoking an absent token value twice
is the same as once and leaves the store untouched. -/
theorem revoke_idempotent_and_silent_witness :
    revokeToken (revokeToken pairStore "c" "missing") "c" "missing" =
      revokeToken pairStore "c" "missing" ∧
    revokeToken pairStore "c" "missing" = pairStore :=
  ⟨(revoke_idempotent_and_silent pairStore "c" "missing").1,
   (revoke_idempotent_and_silent pairStore "c" "missing").2 (by decide)⟩

/-- C1 counterexample: in a store holding one linked pair, the owning client
revokes the access token `atok` via `revokeToken`, yet the sibling refresh
row `rtok` is still not revoked — explicit revocation does not reach the
sibling, contradicting the claim that both rows of the pair end up revoked. -/
theorem revoke_leaves_sibling_active :
    ∃ row ∈ (revokeToken pairStore "c" "atok").tokens,
      row.token = "rtok" ∧ row.revoked = false := by decide

/-- C1 (amended): `revokeToken` marks exactly the rows matching the presented
token value and the calling client as revoked, leaving every other row — the
pair's sibling included — unchanged; only rotation (`exchangeRefreshToken`)
revokes both members of a pair, marking every row whose token value is the
presented refresh token or its stored `related_token`. -/
theorem revocation_reaches_sibling_only_via_rotation (s : Store) (cl t : String) :
    (revokeToken s cl t).authCodes = s.authCodes ∧
    (revokeToken s cl t).tokens = s.tokens.map (fun row =>
      if row.token = t ∧ row.client_id = cl then { row with revoked := true }
      else row) ∧
    (∀ rt : String, ∀ sc : Option (List String), ∀ res : Option String,
      ∀ now : Nat, ∀ a b : String, ∀ d : TokenRow,
      singleMatch (refreshPred cl rt) s.tokens = some d →
      ¬ d.expires_at < now →
      (exchangeRefreshToken s cl rt sc res now a b).2.tokens =
        s.tokens.map (fun row =>
          if row.token = rt ∨ row.token = d.related_token then
            { row with revoked := true }
          else row) ++
          mintPairRows cl (sc.getD d.scopes) (jsOrNull d.resource) now a b) := by
  refine ⟨rfl, rfl, ?_⟩
  intro rt sc res now a b d hm hexp
  unfold exchangeRefreshToken
  rw [hm]
  simp only [if_neg hexp]
  rfl

/-- Witness for C1 (amended) at `pairStore`: rotating `rtok` at time 5
revokes both stored rows and appends the fresh pair. -/
theorem revocation_reaches_sibling_only_via_rotation_witness :
    (exchangeRefreshToken pairStore "c" "rtok" none none 5 "a1" "r1").2.tokens =
      pairStore.tokens.map (fun row =>
        if row.token = "rtok" ∨ row.token = pairRefreshRow.related_token then
          { row with revoked := true }
        else row) ++
        mintPairRows "c" ((none : Option (List String)).getD pairRefreshRow.scopes)
          (jsOrNull pairRefreshRow.resource) 5 "a1" "r1" :=
  (revocation_reaches_sibling_only_via_rotation pairStore "c" "x").2.2
    "rtok" none none 5 "a1" "r1" pairRefreshRow (by decide) (by decide)

/-- C2 counterexample: at the exact expiry instant (`now = expires_at`, so
`now ≥ expires_at` holds) the code exchange succeeds and mints a token pair
instead of failing with Expired — the source rejects only when the expiry is
strictly in the past (`new Date(expires_at) < new Date()`). -/
theorem exchange_succeeds_at_expiry_instant :
    codeRow.expires_at ≤ 100 ∧
    (exchangeAuthorizationCode codeStore "cl" "c1" "v" "u" none 100 "a" "r").1 =
      Except.ok { access_token := "a"
                  token_type := "bearer"
                  expires_in := 3600
                  refresh_token := "r"
                  scope := "read" } := by decide

/-- C2 (amended): assuming the store's per-row uniqueness of code values,
`exchangeAuthorizationCode` performs exactly this case analysis: if no stored
row matches both the code value and the owning client it fails with NotFound
and leaves the store unchanged; if a matching row exists but `now > expiresAt`
(strictly past expiry — at `now = expiresAt` the code is still accepted) it
deletes the row and fails with Expired; otherwise it deletes the row and
returns a token pair built from the row's fields. -/
theorem exchange_code_case_analysis (s : Store) (cl code cv ru : String)
    (res : Option String) (now : Nat) (a r : String)
    (hnd : (s.authCodes.map AuthCodeRow.code).Nodup) :
    ((∀ row ∈ s.authCodes, ¬ codePred cl code row) →
       exchangeAuthorizationCode s cl code cv ru res now a r =
         (.error .codeNotFound, s)) ∧
    (∀ row ∈ s.authCodes, codePred cl code row →
      (row.expires_at < now →
         exchangeAuthorizationCode s cl code cv ru res now a r =
           (.error .codeExpired, deleteCodeStore s code)) ∧
      (¬ row.expires_at < now →
         exchangeAuthorizationCode s cl code cv ru res now a r =
           (.ok { access_token := a
                  token_type := "bearer"
                  expires_in := 3600
                  refresh_token := r
                  scope := String.intercalate " " row.scopes },
            { authCodes := (deleteCodeStore s code).authCodes
              tokens := s.tokens ++
                mintPairRows cl row.scopes (jsOrNull row.resource) now a r }))) := by
  constructor
  · intro h
    exact exchangeCode_of_none cv ru res now a r (singleMatch_eq_none h)
  · intro row hrow hp
    have hm : singleMatch (codePred cl code) s.authCodes = some row :=
      singleMatch_eq_some_of_key hnd hrow hp
        (fun y _ hpy => by rw [hpy.1, hp.1])
    exact ⟨fun hexp => exchangeCode_of_expired cv ru res a r hm hexp,
           fun hexp => exchangeCode_of_live cv ru res a r hm hexp⟩

/-- Witness for C2 (amended) at `codeStore` before expiry: the exchange
deletes the row and returns the pair built from the stored fields. -/
theorem exchange_code_case_analysis_witness :
    exchangeAuthorizationCode codeStore "cl" "c1" "v" "u" none 5 "a" "r" =
      (.ok { access_token := "a"
             token_type := "bearer"
             expires_in := 3600
             refresh_token := "r"
             scope := String.intercalate " " codeRow.scopes },
       { authCodes := (deleteCodeStore codeStore "c1").authCodes
         tokens := codeStore.tokens ++
           mintPairRows "cl" codeRow.scopes (jsOrNull codeRow.resource) 5 "a" "r" }) :=
  ((exchange_code_case_analysis codeStore "cl" "c1" "v" "u" none 5 "a" "r"
      (by decide)).2 codeRow (by decide) (by decide)).2 (by decide)

/-- C3: an authorization code is redeemable at most once.  Whenever an
exchange of a code does not fail with NotFound (it succeeded, or it hit the
expired path, and in either case removed the row), every further exchange of
the same code — by any client, at any time, with any arguments — fails with
NotFound and leaves the store unchanged. -/
theorem code_redeemable_at_most_once (s : Store) (cl code cv ru : String)
    (res : Option String) (now : Nat) (a r : String)
    (h : (exchangeAuthorizationCode s cl code cv ru res now a r).1 ≠
      Except.error OAuthError.codeNotFound) :
    ∀ cl2 cv2 ru2 : String, ∀ res2 : Option String, ∀ now2 : Nat,
      ∀ a2 r2 : String,
      exchangeAuthorizationCode
          ((exchangeAuthorizationCode s cl code cv ru res now a r).2)
          cl2 code cv2 ru2 res2 now2 a2 r2 =
        (.error .codeNotFound,
         (exchangeAuthorizationCode s cl code cv ru res now a r).2) := by
  intro cl2 cv2 ru2 res2 now2 a2 r2
  cases hm : singleMatch (codePred cl code) s.authCodes with
  | none =>
    exact absurd (by rw [exchangeCode_of_none cv ru res now a r hm]) h
  | some d =>
    have hcodes :
        ((exchangeAuthorizationCode s cl code cv ru res now a r).2).authCodes =
          s.authCodes.filter (fun q => ¬ q.code = code) := by
      by_cases hexp : d.expires_at < now
      · rw [exchangeCode_of_expired cv ru res a r hm hexp]
        rfl
      · rw [exchangeCode_of_live cv ru res a r hm hexp]
        rfl
    apply exchangeCode_of_none
    apply singleMatch_eq_none
    intro q hq hpq
    rw [hcodes] at hq
    have hq2 := List.of_mem_filter hq
    simp only [decide_eq_true_eq] at hq2
    exact hq2 hpq.1

/-- Witness for C3: redeem `c1` from `codeStore` once, then redeeming it
again (even by another client at another time) fails with NotFound. -/
theorem code_redeemable_at_most_once_witness :
    exchangeAuthorizationCode
        ((exchangeAuthorizationCode codeStore "cl" "c1" "v" "u" none 5 "a" "r").2)
        "cl2" "c1" "v2" "u2" none 7 "a2" "r2" =
      (.error .codeNotFound,
       (exchangeAuthorizationCode codeStore "cl" "c1" "v" "u" none 5 "a" "r").2) :=
  code_redeemable_at_most_once codeStore "cl" "c1" "v" "u" none 5 "a" "r"
    (by decide) "cl2" "v2" "u2" none 7 "a2" "r2"

/-- C6: `exchangeRefreshToken` (assuming the store's per-row uniqueness of
token values) fails with NotFound (`Invalid refresh token`) if no non-revoked
refresh-kind row matches the presented value and owning client, fails with
Expired if such a row exists but is strictly past its expiry, and on success
marks both the presented refresh token and its linked access token revoked
and persists a fresh pair whose scopes are the requested ones when supplied
and the prior grant's otherwise, whose resource is the prior grant's, and
whose expiries are measured from the rotation time (1 hour / 30 days inside
`mintPairRows`); the response carries only the two new token values. -/
theorem rotate_case_analysis (s : Store) (cl rt : String)
    (sc : Option (List String)) (res : Option String) (now : Nat) (a b : String)
    (hnd : (s.tokens.map TokenRow.token).Nodup) :
    ((∀ row ∈ s.tokens, ¬ refreshPred cl rt row) →
       exchangeRefreshToken s cl rt sc res now a b =
         (.error .invalidRefreshToken, s)) ∧
    (∀ row ∈ s.tokens, refreshPred cl rt row →
      (row.expires_at < now →
         exchangeRefreshToken s cl rt sc res now a b =
           (.error .refreshExpired, s)) ∧
      (¬ row.expires_at < now →
         exchangeRefreshToken s cl rt sc res now a b =
           (.ok { access_token := a
                  token_type := "bearer"
                  expires_in := 3600
                  refresh_token := b
                  scope := String.intercalate " " (sc.getD row.scopes) },
            { authCodes := s.authCodes
              tokens := s.tokens.map (fun q =>
                  if q.token = rt ∨ q.token = row.related_token then
                    { q with revoked := true }
                  else q) ++
                mintPairRows cl (sc.getD row.scopes) (jsOrNull row.resource)
                  now a b }))) := by
  constructor
  · intro h
    exact rotate_of_none sc res now a b (singleMatch_eq_none h)
  · intro row hrow hp
    have hm : singleMatch (refreshPred cl rt) s.tokens = some row :=
      singleMatch_eq_some_of_key hnd hrow hp
        (fun y _ hpy => by rw [hpy.1, hp.1])
    exact ⟨fun hexp => rotate_of_expired sc res a b hm hexp,
           fun hexp => rotate_of_live sc res a b hm hexp⟩

/-- Witness for C6 at `pairStore`: rotating the live refresh token `rtok` at
time 5 succeeds, revokes both stored rows, and appends the fresh pair. -/
theorem rotate_case_analysis_witness :
    exchangeRefreshToken pairStore "c" "rtok" none none 5 "na" "nr" =
      (.ok { access_token := "na"
             token_type := "bearer"
             expires_in := 3600
             refresh_token := "nr"
             scope := String.intercalate " "
               ((none : Option (List String)).getD pairRefreshRow.scopes) },
       { authCodes := pairStore.authCodes
         tokens := pairStore.tokens.map (fun q =>
             if q.token = "rtok" ∨ q.token = pairRefreshRow.related_token then
               { q with revoked := true }
             else q) ++
           mintPairRows "c" ((none : Option (List String)).getD pairRefreshRow.scopes)
             (jsOrNull pairRefreshRow.resource) 5 "na" "nr" }) :=
  ((rotate_case_analysis pairStore "c" "rtok" none none 5 "na" "nr"
      (by decide)).2 pairRefreshRow (by decide) (by decide)).2 (by decide)

/-- C7: `verifyAccessToken` never mutates the store, fails with InvalidToken
(`Invalid access token`) when no non-revoked access-kind row matches the
value (expiry plays no part in the lookup filter), fails with Expired when
such a row exists but is strictly past its expiry at verification time, and
otherwise returns the row's client identifier, scopes, expiry (in seconds)
and optional resource.  This holds under the store's per-row uniqueness of
token values. -/
theorem verify_case_analysis (s : Store) (t : String) (now : Nat)
    (hnd : (s.tokens.map TokenRow.token).Nodup) :
    (verifyAccessToken s t now).2 = s ∧
    ((∀ row ∈ s.tokens, ¬ accessPred t row) →
       (verifyAccessToken s t now).1 = .error .invalidAccessToken) ∧
    (∀ row ∈ s.tokens, accessPred t row →
      (row.expires_at < now →
         (verifyAccessToken s t now).1 = .error .accessExpired) ∧
      (¬ row.expires_at < now →
         (verifyAccessToken s t now).1 =
           .ok { token := row.token
                 clientId := row.client_id
                 scopes := row.scopes
                 expiresAt := row.expires_at / 1000
                 resource := jsOrNull row.resource })) := by
  refine ⟨?_, ?_, ?_⟩
  · cases hm : singleMatch (accessPred t) s.tokens with
    | none => rw [verify_of_none now hm]
    | some d =>
      by_cases hexp : d.expires_at < now
      · rw [verify_of_expired hm hexp]
      · rw [verify_of_live hm hexp]
  · intro h
    rw [verify_of_none now (singleMatch_eq_none h)]
  · intro row hrow hp
    have hm : singleMatch (accessPred t) s.tokens = some row :=
      singleMatch_eq_some_of_key hnd hrow hp
        (fun y _ hpy => by rw [hpy.1, hp.1])
    exact ⟨fun hexp => by rw [verify_of_expired hm hexp],
           fun hexp => by rw [verify_of_live hm hexp]⟩

/-- The access row of `pairStore`. -/
def pairAccessRow : TokenRow :=
  { token := "atok"
    token_type := .access
    client_id := "c"
    scopes := ["read"]
    resource := none
    expires_at := 60 * 60 * 1000
    revoked := false
    related_token := "rtok" }

/-- Witness for C7 at `pairStore`: verifying the live access token `atok` at
time 5 mutates nothing and returns the stored fields. -/
theorem verify_case_analysis_witness :
    (verifyAccessToken pairStore "atok" 5).2 = pairStore ∧
    (verifyAccessToken pairStore "atok" 5).1 =
      .ok { token := pairAccessRow.token
            clientId := pairAccessRow.client_id
            scopes := pairAccessRow.scopes
            expiresAt := pairAccessRow.expires_at / 1000
            resource := jsOrNull pairAccessRow.resource } :=
  ⟨(verify_case_analysis pairStore "atok" 5 (by decide)).1,
   ((verify_case_analysis pairStore "atok" 5 (by decide)).2.2 pairAccessRow
      (by decide) (by decide)).2 (by decide)⟩

/-- C8: round-trip.  After a pair issuance for a client, as long as the fresh
access-token value collides with no stored token value and verification
happens no later than the access expiry (1 hour after mint), verifying the
returned access token succeeds and reports exactly the granting client's
identifier and exactly the granted scopes. -/
theorem issue_then_verify_roundtrip (s : Store) (cl : String)
    (scopes : List String) (res : Option String) (now : Nat) (a b : String)
    (now2 : Nat) (hfresh : ∀ row ∈ s.tokens, row.token ≠ a)
    (hlive : ¬ now + 60 * 60 * 1000 < now2) :
    (verifyAccessToken (issuePair s cl scopes res now a b).2 a now2).1 =
      .ok { token := a
            clientId := cl
            scopes := scopes
            expiresAt := (now + 60 * 60 * 1000) / 1000
            resource := jsOrNull res } := by
  have hm : singleMatch (accessPred a)
      ((issuePair s cl scopes res now a b).2).tokens =
      some { token := a
             token_type := .access
             client_id := cl
             scopes := scopes
             resource := res
             expires_at := now + 60 * 60 * 1000
             revoked := false
             related_token := b } := by
    show singleMatch (accessPred a)
      (s.tokens ++ mintPairRows cl scopes res now a b) = _
    unfold singleMatch
    rw [List.filter_append,
        filter_decide_eq_nil (fun q hq hpq => hfresh q hq hpq.1)]
    have hmint : (mintPairRows cl scopes res now a b).filter
        (fun q => decide (accessPred a q)) =
        [{ token := a
           token_type := .access
           client_id := cl
           scopes := scopes
           resource := res
           expires_at := now + 60 * 60 * 1000
           revoked := false
           related_token := b }] := by
      unfold mintPairRows
      simp only [List.filter_cons, List.filter_nil, decide_eq_true_eq]
      rw [if_pos ⟨rfl, rfl, rfl⟩,
          if_neg (fun hc => TokenType.noConfusion hc.2.1)]
    rw [hmint]
    rfl
  rw [verify_of_live hm hlive]

/-- Witness for C8: mint a pair into the token-free `codeStore` at time 0 and
verify the access token at time 5. -/
theorem issue_then_verify_roundtrip_witness :
    (verifyAccessToken (issuePair codeStore "c" ["read"] none 0 "a" "b").2
        "a" 5).1 =
      .ok { token := "a"
            clientId := "c"
            scopes := ["read"]
            expiresAt := (0 + 60 * 60 * 1000) / 1000
            resource := jsOrNull none } :=
  issue_then_verify_roundtrip codeStore "c" ["read"] none 0 "a" "b" 5
    (by decide) (by decide)

end RecipeMCP
